import Mathlib

/-!
Verification development for the block-device convergence agent
(`flocker/node/agents/blockdevice.py`).

The loopback backend persists its whole state as a directory tree:
`<root>/unattached/<volume_id>` holds one file per unattached volume and
`<root>/attached/<host>/<volume_id>` one file per attached volume.  We embed
that tree shallowly: a directory is an association list from file (or
subdirectory) name to content, and the file content is just its size in
bytes, which is all the backend ever reads back.  The `losetup` association
table and the mount table are further explicit pieces of state threaded
through the operations that touch them.
-/

/-- Error taxonomy of the backend (`UnknownVolume`, `AlreadyAttachedVolume`,
`UnattachedVolume`), each carrying the offending blockdevice id. -/
inductive VolumeException where
  | unknownVolume (blockdevice_id : String)
  | alreadyAttachedVolume (blockdevice_id : String)
  | unattachedVolume (blockdevice_id : String)
deriving DecidableEq

/-- `BlockDeviceVolume`: blockdevice id, size in bytes (a Python `int`, so a
mathematical integer), and optional owning host (`None` = unattached). -/
structure BlockDeviceVolume where
  blockdevice_id : String
  size : Int
  host : Option String := none
deriving DecidableEq

/-- The durable state of `LoopbackBlockDeviceAPI`: the `unattached` directory
(file name, file size) and the `attached` directory (host subdirectory name,
files inside it). -/
structure LoopbackState where
  unattached : List (String × Nat)
  attached : List (String × List (String × Nat))
deriving DecidableEq

/-- Writing a file into a directory (`FilePath.setContent` / `os.rename` onto
a target): replaces the content if a file of that name exists, otherwise the
file appears as a new directory entry. -/
def setEntry {α : Type} (k : String) (v : α) : List (String × α) → List (String × α)
  | [] => [(k, v)]
  | (k0, v0) :: rest => if k0 = k then (k, v) :: rest else (k0, v0) :: setEntry k v rest

/-- Reading a directory entry by name. -/
def lookupEntry {α : Type} (k : String) : List (String × α) → Option α
  | [] => none
  | (k0, v) :: rest => if k0 = k then some v else lookupEntry k rest

/-- The volumes reconstructed from the `unattached` directory: id = file
name, size = file size, no host. -/
def unattachedVols (un : List (String × Nat)) : List BlockDeviceVolume :=
  un.map (fun c => { blockdevice_id := c.1, size := (c.2 : Int), host := none })

/-- The volumes reconstructed from the `attached` directory: one volume per
file of each per-host subdirectory, attached to that host. -/
def attachedVols : List (String × List (String × Nat)) → List BlockDeviceVolume
  | [] => []
  | (h, files) :: rest =>
      files.map (fun c => { blockdevice_id := c.1, size := (c.2 : Int), host := some h })
        ++ attachedVols rest

/-- `LoopbackBlockDeviceAPI.list_volumes`: scan the `unattached` directory,
then every per-host subdirectory of `attached`. -/
def list_volumes (s : LoopbackState) : List BlockDeviceVolume :=
  unattachedVols s.unattached ++ attachedVols s.attached

/-- All blockdevice ids the backend currently knows about, in listing order. -/
def allIds (s : LoopbackState) : List String :=
  (list_volumes s).map (fun v => v.blockdevice_id)

/-- First volume of a listing with the given id, as the `for` loop of
`LoopbackBlockDeviceAPI._get` finds it. -/
def findVolume (blockdevice_id : String) : List BlockDeviceVolume → Option BlockDeviceVolume
  | [] => none
  | v :: rest =>
      if v.blockdevice_id = blockdevice_id then some v else findVolume blockdevice_id rest

/-- `LoopbackBlockDeviceAPI._get`: first listed volume with the id, else
`UnknownVolume`. -/
def LoopbackBlockDeviceAPI._get (blockdevice_id : String) (s : LoopbackState) :
    Except VolumeException BlockDeviceVolume :=
  match findVolume blockdevice_id (list_volumes s) with
  | some volume => .ok volume
  | none => .error (.unknownVolume blockdevice_id)

/-- `LoopbackBlockDeviceAPI.create_volume`: build the volume record with a
fresh uuid (passed in explicitly, since it is drawn from the environment) and
the requested size, then write `b'\0' * size` — hence a file of
`max size 0` bytes — into the `unattached` directory.  No validation happens
and no exception is ever raised. -/
def create_volume (size : Int) (newId : String) (s : LoopbackState) :
    BlockDeviceVolume × LoopbackState :=
  let volume : BlockDeviceVolume := { blockdevice_id := newId, size := size }
  (volume, { s with unattached := setEntry newId size.toNat s.unattached })

/-- Moving the backing file into the per-host subdirectory: the subdirectory
is created lazily if absent, and the file lands in it under its own name. -/
def attachFiles (host blockdevice_id : String) (size : Nat) :
    List (String × List (String × Nat)) → List (String × List (String × Nat))
  | [] => [(host, [(blockdevice_id, size)])]
  | (h0, files) :: rest =>
      if h0 = host then (h0, setEntry blockdevice_id size files) :: rest
      else (h0, files) :: attachFiles host blockdevice_id size rest

/-- `LoopbackBlockDeviceAPI.attach_volume`: look the volume up; if it has no
host yet, move its file from `unattached` into `attached/<host>/` and return
the record with `host` set, otherwise raise `AlreadyAttachedVolume`.  The
state component of the result is the directory tree after the call. -/
def attach_volume (blockdevice_id host : String) (s : LoopbackState) :
    Except VolumeException BlockDeviceVolume × LoopbackState :=
  match LoopbackBlockDeviceAPI._get blockdevice_id s with
  | .error e => (.error e, s)
  | .ok volume =>
    match volume.host with
    | none =>
        let attached_volume := { volume with host := some host }
        ((Except.ok attached_volume),
          { unattached := s.unattached.filter (fun c => decide ¬(c.1 = blockdevice_id)),
            attached := attachFiles host blockdevice_id volume.size.toNat s.attached })
    | some _ => (.error (.alreadyAttachedVolume blockdevice_id), s)

/-- The `losetup` state of the host: which backing file (identified by the
host directory and file name of its path) is associated with which loop
device, plus the number of the next free loop device. -/
structure LoopState where
  assocs : List ((String × String) × String)
  nextDevice : Nat
deriving DecidableEq

/-- `device_for_path`: the loop device currently associated with the backing
file, if any (`losetup --associated`). -/
def device_for_path (p : String × String) : List ((String × String) × String) → Option String
  | [] => none
  | (q, d) :: rest => if q = p then some d else device_for_path p rest

/-- `losetup --find <path>`: associate the file with the next free loop
device. -/
def losetupFind (p : String × String) (lo : LoopState) : LoopState :=
  { assocs := lo.assocs ++ [(p, "/dev/loop" ++ toString lo.nextDevice)],
    nextDevice := lo.nextDevice + 1 }

/-- `LoopbackBlockDeviceAPI.get_device_path`: look the volume up; on an
attached volume resolve the backing file to a loop device, running
`losetup --find` first when no association exists yet, and re-resolve; on an
unattached volume raise `UnattachedVolume`. -/
def get_device_path (blockdevice_id : String) (s : LoopbackState) (lo : LoopState) :
    Except VolumeException (Option String) × LoopState :=
  match LoopbackBlockDeviceAPI._get blockdevice_id s with
  | .error e => (.error e, lo)
  | .ok volume =>
    match volume.host with
    | some h =>
        let p := (h, volume.blockdevice_id)
        let lo2 := match device_for_path p lo.assocs with
          | none => losetupFind p lo
          | some _ => lo
        (.ok (device_for_path p lo2.assocs), lo2)
    | none => (.error (.unattachedVolume blockdevice_id), lo)

/-- Modelled from the spec: `Dataset` is an external immutable record of the
control module (not among the sources); it has a stable id and a maximum
size, which may be unspecified. -/
structure Dataset where
  dataset_id : String
  maximum_size : Option Int := none
deriving DecidableEq

/-- Modelled from the spec: `Manifestation` is an external immutable record
pairing a `Dataset` with a primary/replica flag; equality is structural. -/
structure Manifestation where
  dataset : Dataset
  primary : Bool
deriving DecidableEq

/-- Modelled from the spec: `Node` is an external immutable record of the
desired configuration, carrying a hostname (absent for the placeholder node
the deployer builds when no entry matches) and a mapping from dataset id to
`Manifestation`, empty by default. -/
structure Node where
  hostname : Option String
  manifestations : List (String × Manifestation) := []
deriving DecidableEq

/-- Modelled from the spec: the desired configuration (`Deployment`) is an
immutable snapshot holding the collection of per-node entries. -/
structure Deployment where
  nodes : List Node
deriving DecidableEq

/-- Modelled from the spec: `NodeState` describes one node — hostname, the
running and not-running applications (always empty here), the discovered
manifestations and a mapping from dataset id to local mount path. -/
structure NodeState where
  hostname : String
  running : List String := []
  not_running : List String := []
  manifestations : List Manifestation
  paths : List (String × String) := []
deriving DecidableEq

/-- `_manifestation_from_volume`: a `Manifestation` whose dataset id is the
blockdevice id, always primary. -/
def _manifestation_from_volume (v : BlockDeviceVolume) : Manifestation :=
  { dataset := { dataset_id := v.blockdevice_id }, primary := true }

/-- `CreateBlockDeviceDataset`: immutable action record pairing a dataset
with a target mountpoint path. -/
structure CreateBlockDeviceDataset where
  dataset : Dataset
  mountpoint : String
deriving DecidableEq

/-- `InParallel`: the changes to run, one per element of the Python set the
diff produced; a multiset, since a Python set iterates in no fixed order. -/
structure InParallel where
  changes : Multiset CreateBlockDeviceDataset
deriving DecidableEq

/-- `BlockDeviceDeployer`: hostname of the node the deployer manages (its
block device api is threaded separately as explicit state). -/
structure BlockDeviceDeployer where
  hostname : String
deriving DecidableEq

/-- `BlockDeviceDeployer._mountpath_for_manifestation`: the mount root
`/flocker` with the dataset id as child path segment. -/
def _mountpath_for_manifestation (m : Manifestation) : String :=
  "/flocker" ++ "/" ++ m.dataset.dataset_id

/-- `BlockDeviceDeployer.discover_local_state`, parametrised by the volume
listing the block device api returned: keep the volumes attached to this
deployer, map each to a manifestation, record a mount path per dataset id,
and package everything as a fresh `NodeState`. -/
def discover_local_state (hostname : String) (volumes : List BlockDeviceVolume) : NodeState :=
  let manifestations :=
    (volumes.filter (fun v => decide (v.host = some hostname))).map _manifestation_from_volume
  let paths := manifestations.map
    (fun m => (m.dataset.dataset_id, _mountpath_for_manifestation m))
  { hostname := hostname,
    running := [],
    not_running := [],
    manifestations := manifestations,
    paths := paths }

/-- `BlockDeviceDeployer.calculate_necessary_state_changes`: filter the
desired configuration down to the entries for this hostname; destructure the
resulting list into exactly one entry (an empty placeholder node when there
is none; `none` models the ValueError the Python destructuring raises when
several entries share the hostname); diff the configured manifestation set
against the local ones by value; and wrap one `CreateBlockDeviceDataset` per
missing manifestation in an `InParallel`.  The current cluster state is
accepted but unused. -/
def calculate_necessary_state_changes (d : BlockDeviceDeployer) (local_state : NodeState)
    (desired_configuration : Deployment) (current_cluster_state : Deployment) :
    Option InParallel :=
  let _ := current_cluster_state
  let potential_configs :=
    desired_configuration.nodes.filter (fun node => decide (node.hostname = some d.hostname))
  let this_node_config? : Option Node :=
    match potential_configs with
    | [] => some { hostname := none }
    | [c] => some c
    | _ => none
  this_node_config?.map (fun this_node_config =>
    let configured : Finset Manifestation :=
      (this_node_config.manifestations.map Prod.snd).toFinset
    let to_create := configured \ local_state.manifestations.toFinset
    { changes := to_create.val.map (fun m =>
        { dataset := m.dataset, mountpoint := _mountpath_for_manifestation m }) })

/-- A mount table entry: device path, mountpoint, filesystem type. -/
structure MountEntry where
  device : String
  mountpoint : String
  fstype : String
deriving DecidableEq

/-- The whole world `CreateBlockDeviceDataset.run` acts on: the loopback
backend tree, the losetup table, the directories created so far, the
filesystem written on each device (by `mkfs -t`), and the mount table. -/
structure World where
  store : LoopbackState
  loops : LoopState
  dirs : List String := []
  filesystems : List (String × String) := []
  mounts : List MountEntry := []
deriving DecidableEq

/-- `CreateBlockDeviceDataset.run`: create a volume of the dataset maximum
size (a missing size fails the record construction), attach it to the
deployer host, resolve its device path, make the mountpoint directory
(`os.makedirs`, unguarded in the source, raises `OSError` when the directory
already exists), `mkfs -t ext4` the device and mount it.  `none` models any
raised exception. -/
def CreateBlockDeviceDataset.run (c : CreateBlockDeviceDataset) (d : BlockDeviceDeployer)
    (newId : String) (w : World) : Option World :=
  match c.dataset.maximum_size with
  | none => none
  | some size =>
    let r1 := create_volume size newId w.store
    match attach_volume r1.1.blockdevice_id d.hostname r1.2 with
    | (.error _, _) => none
    | (.ok volume, s2) =>
      match get_device_path volume.blockdevice_id s2 w.loops with
      | (.error _, _) => none
      | (.ok none, _) => none
      | (.ok (some device), lo2) =>
          if c.mountpoint ∈ w.dirs then none
          else
            some { store := s2,
                   loops := lo2,
                   dirs := w.dirs ++ [c.mountpoint],
                   filesystems := setEntry device "ext4" w.filesystems,
                   mounts := w.mounts ++ [{ device := device,
                                            mountpoint := c.mountpoint,
                                            fstype := "ext4" }] }

/-! Helper lemmas about directory entries and listings. -/

theorem setEntry_of_not_mem {α : Type} (k : String) (v : α) (l : List (String × α))
    (h : k ∉ l.map Prod.fst) : setEntry k v l = l ++ [(k, v)] := by
  induction l with
  | nil => rfl
  | cons c rest ih =>
      simp only [List.map_cons, List.mem_cons] at h
      push_neg at h
      simp only [setEntry, if_neg (Ne.symm h.1), List.cons_append]
      rw [ih h.2]

theorem mem_setEntry_self {α : Type} (k : String) (v : α) (l : List (String × α)) :
    (k, v) ∈ setEntry k v l := by
  induction l with
  | nil => simp [setEntry]
  | cons c rest ih =>
      by_cases hc : c.1 = k
      · simp [setEntry, hc]
      · simp only [setEntry]
        rw [if_neg hc]
        exact List.mem_cons_of_mem _ ih

theorem mem_setEntry {α : Type} (x : String × α) (k : String) (v : α) (l : List (String × α))
    (h : x ∈ setEntry k v l) : x ∈ l ∨ x = (k, v) := by
  induction l with
  | nil => simpa [setEntry] using h
  | cons c rest ih =>
      by_cases hc : c.1 = k
      · simp only [setEntry, if_pos hc, List.mem_cons] at h
        rcases h with h | h
        · exact Or.inr h
        · exact Or.inl (List.mem_cons_of_mem _ h)
      · simp only [setEntry, if_neg hc, List.mem_cons] at h
        rcases h with h | h
        · exact Or.inl (by simp [h])
        · rcases ih h with h2 | h2
          · exact Or.inl (List.mem_cons_of_mem _ h2)
          · exact Or.inr h2

theorem lookupEntry_setEntry {α : Type} (k : String) (v : α) (l : List (String × α)) :
    lookupEntry k (setEntry k v l) = some v := by
  induction l with
  | nil => simp [setEntry, lookupEntry]
  | cons c rest ih =>
      by_cases hc : c.1 = k
      · simp [setEntry, lookupEntry, hc]
      · simp [setEntry, lookupEntry, hc, ih]

theorem findVolume_eq_none (blockdevice_id : String) (l : List BlockDeviceVolume)
    (h : blockdevice_id ∉ l.map (fun v => v.blockdevice_id)) :
    findVolume blockdevice_id l = none := by
  induction l with
  | nil => rfl
  | cons v rest ih =>
      simp only [List.map_cons, List.mem_cons] at h
      push_neg at h
      simp only [findVolume, if_neg (Ne.symm h.1)]
      exact ih h.2

theorem findVolume_append_none (blockdevice_id : String) (xs ys : List BlockDeviceVolume)
    (h : findVolume blockdevice_id xs = none) :
    findVolume blockdevice_id (xs ++ ys) = findVolume blockdevice_id ys := by
  induction xs with
  | nil => rfl
  | cons v rest ih =>
      by_cases hv : v.blockdevice_id = blockdevice_id
      · simp [findVolume, hv] at h
      · simp only [findVolume, if_neg hv] at h
        simp only [List.cons_append, findVolume, if_neg hv]
        exact ih h

theorem findVolume_mem (blockdevice_id : String) (l : List BlockDeviceVolume)
    (v : BlockDeviceVolume) (h : findVolume blockdevice_id l = some v) :
    v ∈ l ∧ v.blockdevice_id = blockdevice_id := by
  induction l with
  | nil => simp [findVolume] at h
  | cons w rest ih =>
      by_cases hw : w.blockdevice_id = blockdevice_id
      · simp only [findVolume, if_pos hw, Option.some.injEq] at h
        exact ⟨by simp [← h], by rw [← h]; exact hw⟩
      · simp only [findVolume, if_neg hw] at h
        rcases ih h with ⟨h1, h2⟩
        exact ⟨List.mem_cons_of_mem _ h1, h2⟩

theorem findVolume_of_nodup (blockdevice_id : String) (l : List BlockDeviceVolume)
    (v : BlockDeviceVolume) (hnd : (l.map (fun u => u.blockdevice_id)).Nodup)
    (hv : v ∈ l) (hid : v.blockdevice_id = blockdevice_id) :
    findVolume blockdevice_id l = some v := by
  induction l with
  | nil => simp at hv
  | cons w rest ih =>
      simp only [List.map_cons, List.nodup_cons] at hnd
      rcases List.mem_cons.mp hv with h | h
      · subst h
        simp [findVolume, hid]
      · have hw : w.blockdevice_id ≠ blockdevice_id := by
          intro he
          exact hnd.1 (by
            rw [he, ← hid]
            exact List.mem_map_of_mem _ h)
        simp only [findVolume, if_neg hw]
        exact ih hnd.2 h

theorem unattachedVols_ids (un : List (String × Nat)) :
    (unattachedVols un).map (fun v => v.blockdevice_id) = un.map Prod.fst := by
  simp [unattachedVols, List.map_map]

theorem mem_unattachedVols (blockdevice_id : String) (n : Nat) (un : List (String × Nat))
    (h : (blockdevice_id, n) ∈ un) :
    BlockDeviceVolume.mk blockdevice_id (n : Int) none ∈ unattachedVols un := by
  exact List.mem_map.mpr ⟨(blockdevice_id, n), h, rfl⟩

theorem host_of_mem_unattachedVols (v : BlockDeviceVolume) (un : List (String × Nat))
    (h : v ∈ unattachedVols un) : v.host = none := by
  rcases List.mem_map.mp h with ⟨c, _, hc⟩
  rw [← hc]

theorem host_of_mem_attachedVols (v : BlockDeviceVolume)
    (att : List (String × List (String × Nat))) (h : v ∈ attachedVols att) :
    ∃ hst, v.host = some hst := by
  induction att with
  | nil => simp [attachedVols] at h
  | cons hd rest ih =>
      rcases hd with ⟨h0, files⟩
      simp only [attachedVols, List.mem_append] at h
      rcases h with h | h
      · rcases List.mem_map.mp h with ⟨c, _, hc⟩
        exact ⟨h0, by rw [← hc]⟩
      · exact ih h

theorem mem_attachFiles_self (host blockdevice_id : String) (n : Nat)
    (att : List (String × List (String × Nat))) :
    BlockDeviceVolume.mk blockdevice_id (n : Int) (some host)
      ∈ attachedVols (attachFiles host blockdevice_id n att) := by
  induction att with
  | nil => simp [attachFiles, attachedVols]
  | cons hd rest ih =>
      rcases hd with ⟨h0, files⟩
      by_cases hh : h0 = host
      · subst hh
        simp only [attachFiles, if_pos rfl, attachedVols, List.mem_append]
        exact Or.inl (List.mem_map.mpr ⟨(blockdevice_id, n), mem_setEntry_self _ _ _, rfl⟩)
      · simp only [attachFiles, if_neg hh, attachedVols, List.mem_append]
        exact Or.inr ih

theorem mem_attachFiles (v : BlockDeviceVolume) (host blockdevice_id : String) (n : Nat)
    (att : List (String × List (String × Nat)))
    (h : v ∈ attachedVols (attachFiles host blockdevice_id n att)) :
    v ∈ attachedVols att ∨ v = BlockDeviceVolume.mk blockdevice_id (n : Int) (some host) := by
  induction att with
  | nil =>
      simp only [attachFiles, attachedVols, List.map_cons, List.map_nil, List.append_nil,
        List.mem_singleton] at h
      exact Or.inr h
  | cons hd rest ih =>
      rcases hd with ⟨h0, files⟩
      by_cases hh : h0 = host
      · subst hh
        simp only [attachFiles, if_pos rfl, attachedVols, List.mem_append] at h
        rcases h with h | h
        · rcases List.mem_map.mp h with ⟨c, hc, hcv⟩
          rcases mem_setEntry c blockdevice_id n files hc with h2 | h2
          · exact Or.inl (by
              simp only [attachedVols, List.mem_append]
              exact Or.inl (List.mem_map.mpr ⟨c, h2, hcv⟩))
          · subst h2
            exact Or.inr hcv.symm
        · exact Or.inl (by
            simp only [attachedVols, List.mem_append]
            exact Or.inr h)
      · simp only [attachFiles, if_neg hh, attachedVols, List.mem_append] at h
        rcases h with h | h
        · exact Or.inl (by
            simp only [attachedVols, List.mem_append]
            exact Or.inl h)
        · rcases ih h with h2 | h2
          · exact Or.inl (by
              simp only [attachedVols, List.mem_append]
              exact Or.inr h2)
          · exact Or.inr h2

/-- The blockdevice ids of the attached part of a listing. -/
def attIds (att : List (String × List (String × Nat))) : List String :=
  (attachedVols att).map (fun v => v.blockdevice_id)

theorem attIds_cons (h0 : String) (files : List (String × Nat))
    (rest : List (String × List (String × Nat))) :
    attIds ((h0, files) :: rest) = files.map Prod.fst ++ attIds rest := by
  simp [attIds, attachedVols, List.map_map]

theorem attachFiles_cons (host blockdevice_id : String) (n : Nat) (h0 : String)
    (files : List (String × Nat)) (rest : List (String × List (String × Nat))) :
    attachFiles host blockdevice_id n ((h0, files) :: rest) =
      if h0 = host then (h0, setEntry blockdevice_id n files) :: rest
      else (h0, files) :: attachFiles host blockdevice_id n rest := rfl

theorem attachFiles_ids_perm (host blockdevice_id : String) (n : Nat)
    (att : List (String × List (String × Nat))) (h : blockdevice_id ∉ attIds att) :
    (attIds (attachFiles host blockdevice_id n att)).Perm (blockdevice_id :: attIds att) := by
  induction att with
  | nil => simp [attachFiles, attIds, attachedVols]
  | cons hd rest ih =>
      rcases hd with ⟨h0, files⟩
      rw [attIds_cons] at h
      simp only [List.mem_append] at h
      push_neg at h
      by_cases hh : h0 = host
      · rw [attachFiles_cons, if_pos hh, attIds_cons, setEntry_of_not_mem _ _ _ h.1,
          attIds_cons, List.map_append]
        simp only [List.map_cons, List.map_nil, List.append_assoc, List.singleton_append]
        exact List.perm_middle
      · rw [attachFiles_cons, if_neg hh, attIds_cons, attIds_cons]
        exact ((ih h.2).append_left (files.map Prod.fst)).trans List.perm_middle

theorem filter_keys_perm (blockdevice_id : String) (un : List (String × Nat))
    (hnd : (un.map Prod.fst).Nodup) (hmem : blockdevice_id ∈ un.map Prod.fst) :
    (un.map Prod.fst).Perm
      (blockdevice_id ::
        ((un.filter (fun c => decide ¬(c.1 = blockdevice_id))).map Prod.fst)) := by
  induction un with
  | nil => simp at hmem
  | cons c rest ih =>
      rcases c with ⟨k, m⟩
      simp only [List.map_cons, List.nodup_cons] at hnd
      by_cases hk : k = blockdevice_id
      · subst hk
        have hrest : rest.filter (fun c => decide ¬(c.1 = k)) = rest := by
          apply List.filter_eq_self.mpr
          intro a ha
          simp only [decide_eq_true_eq]
          intro he
          exact hnd.1 (he ▸ List.mem_map_of_mem Prod.fst ha)
        rw [List.filter_cons, if_neg (by simp), hrest, List.map_cons]
      · have hmem2 : blockdevice_id ∈ rest.map Prod.fst := by
          rcases List.mem_cons.mp hmem with h | h
          · exact absurd h.symm hk
          · exact h
        have step := ih hnd.2 hmem2
        rw [List.filter_cons, if_pos (by simpa using hk), List.map_cons, List.map_cons]
        exact (step.cons k).trans (List.Perm.swap _ _ _)

theorem findVolume_attachFiles (host blockdevice_id : String) (n : Nat)
    (att : List (String × List (String × Nat))) (h : blockdevice_id ∉ attIds att) :
    findVolume blockdevice_id (attachedVols (attachFiles host blockdevice_id n att)) =
      some (BlockDeviceVolume.mk blockdevice_id (n : Int) (some host)) := by
  induction att with
  | nil => simp [attachFiles, attachedVols, findVolume]
  | cons hd rest ih =>
      rcases hd with ⟨h0, files⟩
      rw [attIds_cons] at h
      simp only [List.mem_append] at h
      push_neg at h
      have hfiles : findVolume blockdevice_id
          (files.map (fun c =>
            ({ blockdevice_id := c.1, size := (c.2 : Int), host := some h0 } :
              BlockDeviceVolume))) = none := by
        apply findVolume_eq_none
        simpa [List.map_map] using h.1
      by_cases hh : h0 = host
      · rw [attachFiles_cons, if_pos hh]
        subst hh
        simp only [attachedVols]
        rw [setEntry_of_not_mem _ _ _ h.1, List.map_append]
        rw [List.append_assoc, findVolume_append_none _ _ _ hfiles]
        simp [findVolume]
      · rw [attachFiles_cons, if_neg hh]
        simp only [attachedVols]
        rw [findVolume_append_none _ _ _ hfiles]
        exact ih h.2

theorem findVolume_filtered (blockdevice_id : String) (un : List (String × Nat)) :
    findVolume blockdevice_id
      (unattachedVols (un.filter (fun c => decide ¬(c.1 = blockdevice_id)))) = none := by
  apply findVolume_eq_none
  rw [unattachedVols_ids]
  intro hmem
  rcases List.mem_map.mp hmem with ⟨c, hc, hck⟩
  rcases List.mem_filter.mp hc with ⟨_, hp⟩
  simp only [decide_eq_true_eq] at hp
  exact hp hck

theorem device_for_path_append (p : String × String) (l : List ((String × String) × String))
    (x : String) (h : device_for_path p l = none) :
    device_for_path p (l ++ [(p, x)]) = some x := by
  induction l with
  | nil => simp [device_for_path]
  | cons c rest ih =>
      rcases c with ⟨q, d⟩
      by_cases hq : q = p
      · simp [device_for_path, hq] at h
      · simp only [device_for_path, if_neg hq] at h
        simp only [List.cons_append, device_for_path, if_neg hq]
        exact ih h

theorem allIds_eq (s : LoopbackState) :
    allIds s = s.unattached.map Prod.fst ++ attIds s.attached := by
  unfold allIds list_volumes attIds
  rw [List.map_append, unattachedVols_ids]

theorem get_of_nodup (s : LoopbackState) (v : BlockDeviceVolume)
    (hnd : (allIds s).Nodup) (hv : v ∈ list_volumes s) :
    LoopbackBlockDeviceAPI._get v.blockdevice_id s = .ok v := by
  unfold LoopbackBlockDeviceAPI._get
  rw [findVolume_of_nodup v.blockdevice_id (list_volumes s) v hnd hv rfl]

/-- C6: for every positive integer size, `create_volume` returns a volume
record carrying exactly that size and no owning host, and the volume then
appears in `list_volumes` as an unattached volume of the same id and size. -/
theorem create_volume_spec (st : LoopbackState) (size : Int) (newId : String)
    (hpos : 0 < size) :
    (create_volume size newId st).1.size = size ∧
    (create_volume size newId st).1.host = none ∧
    (create_volume size newId st).1.blockdevice_id = newId ∧
    BlockDeviceVolume.mk newId size none ∈ list_volumes (create_volume size newId st).2 := by
  refine ⟨rfl, rfl, rfl, ?_⟩
  have h1 : (newId, size.toNat) ∈ setEntry newId size.toNat st.unattached :=
    mem_setEntry_self _ _ _
  have h2 := mem_unattachedVols newId size.toNat _ h1
  have h3 : ((size.toNat : Int)) = size := Int.toNat_of_nonneg (le_of_lt hpos)
  simp only [create_volume, list_volumes, List.mem_append]
  exact Or.inl (by rw [← h3]; exact h2)

/-- Witness for C6 at a concrete store, size and id. -/
theorem create_volume_spec_witness :
    (0 : Int) < 7 ∧
    ((create_volume 7 "vol-1" ⟨[], []⟩).1.size = 7 ∧
     (create_volume 7 "vol-1" ⟨[], []⟩).1.host = none ∧
     (create_volume 7 "vol-1" ⟨[], []⟩).1.blockdevice_id = "vol-1" ∧
     BlockDeviceVolume.mk "vol-1" 7 none ∈ list_volumes (create_volume 7 "vol-1" ⟨[], []⟩).2) :=
  ⟨by decide, create_volume_spec ⟨[], []⟩ 7 "vol-1" (by decide)⟩

/-- C10: `create_volume` validates nothing and never fails: for any integer
size, even zero or negative, it returns a record carrying exactly that size,
while the backing file holds `max size 0` zero bytes; for a negative size the
listing therefore reconstructs a record of size 0 that disagrees with the
returned record. -/
theorem create_volume_no_validation (st : LoopbackState) (size : Int) (newId : String) :
    (create_volume size newId st).1 = BlockDeviceVolume.mk newId size none ∧
    (∃ n : Nat, lookupEntry newId (create_volume size newId st).2.unattached = some n ∧
      ((n : Int)) = max size 0) ∧
    (size < 0 →
      BlockDeviceVolume.mk newId 0 none ∈ list_volumes (create_volume size newId st).2 ∧
      (BlockDeviceVolume.mk newId 0 none).size ≠ (create_volume size newId st).1.size) := by
  refine ⟨rfl, ⟨size.toNat, ?_, ?_⟩, ?_⟩
  · exact lookupEntry_setEntry _ _ _
  · exact Int.toNat_eq_max size
  · intro hneg
    have h0 : size.toNat = 0 := Int.toNat_of_nonpos (le_of_lt hneg)
    constructor
    · have h1 := mem_unattachedVols newId size.toNat _
        (mem_setEntry_self newId size.toNat st.unattached)
      simp only [create_volume, list_volumes, List.mem_append]
      refine Or.inl ?_
      have h2 : ((size.toNat : Int)) = 0 := by simp [h0]
      rw [← h2]
      exact h1
    · simp only [create_volume]
      intro he
      rw [← he] at hneg
      exact absurd hneg (by decide)

/-- Witness for C10 at a negative size. -/
theorem create_volume_no_validation_witness :
    ((create_volume (-5) "vol-2" ⟨[], []⟩).1 = BlockDeviceVolume.mk "vol-2" (-5) none ∧
     (∃ n : Nat, lookupEntry "vol-2" (create_volume (-5) "vol-2" ⟨[], []⟩).2.unattached = some n ∧
       ((n : Int)) = max (-5) 0) ∧
     ((-5 : Int) < 0 →
       BlockDeviceVolume.mk "vol-2" 0 none ∈ list_volumes (create_volume (-5) "vol-2" ⟨[], []⟩).2 ∧
       (BlockDeviceVolume.mk "vol-2" 0 none).size ≠ (create_volume (-5) "vol-2" ⟨[], []⟩).1.size)) :=
  create_volume_no_validation ⟨[], []⟩ (-5) "vol-2"

/-- C5: attaching a volume that already has an owning host fails with
`AlreadyAttachedVolume` carrying its id, for any requested host, and leaves
the backend state (hence the whole volume listing) unchanged. -/
theorem attach_volume_already_attached (s : LoopbackState) (v : BlockDeviceVolume)
    (h0 host : String) (hnd : (allIds s).Nodup) (hv : v ∈ list_volumes s)
    (hh : v.host = some h0) :
    attach_volume v.blockdevice_id host s =
      (.error (.alreadyAttachedVolume v.blockdevice_id), s) := by
  have hg := get_of_nodup s v hnd hv
  simp [attach_volume, hg, hh]

/-- Witness for C5: a volume attached to host `h1`, re-attach requested for a
different host. -/
theorem attach_volume_already_attached_witness :
    (allIds ⟨[], [("h1", [("vol-3", 4)])]⟩).Nodup ∧
    BlockDeviceVolume.mk "vol-3" 4 (some "h1") ∈ list_volumes ⟨[], [("h1", [("vol-3", 4)])]⟩ ∧
    (BlockDeviceVolume.mk "vol-3" 4 (some "h1")).host = some "h1" ∧
    attach_volume "vol-3" "h2" ⟨[], [("h1", [("vol-3", 4)])]⟩ =
      (.error (.alreadyAttachedVolume "vol-3"), ⟨[], [("h1", [("vol-3", 4)])]⟩) :=
  ⟨by decide, by decide, by decide,
    attach_volume_already_attached ⟨[], [("h1", [("vol-3", 4)])]⟩
      (BlockDeviceVolume.mk "vol-3" 4 (some "h1")) "h1" "h2"
      (by decide) (by decide) (by decide)⟩

/-- C7: on an id without a volume record, both `attach_volume` and
`get_device_path` fail with `UnknownVolume` carrying that id; on a volume
that exists but has no owning host, `get_device_path` fails with
`UnattachedVolume` carrying the volume id. -/
theorem unknown_and_unattached_errors (s : LoopbackState) (lo : LoopState)
    (i host : String) (v : BlockDeviceVolume) :
    (i ∉ (list_volumes s).map (fun u => u.blockdevice_id) →
      attach_volume i host s = (.error (.unknownVolume i), s) ∧
      get_device_path i s lo = (.error (.unknownVolume i), lo)) ∧
    ((allIds s).Nodup → v ∈ list_volumes s → v.host = none →
      get_device_path v.blockdevice_id s lo =
        (.error (.unattachedVolume v.blockdevice_id), lo)) := by
  constructor
  · intro hni
    have hf : findVolume i (list_volumes s) = none := findVolume_eq_none _ _ hni
    constructor
    · simp [attach_volume, LoopbackBlockDeviceAPI._get, hf]
    · simp [get_device_path, LoopbackBlockDeviceAPI._get, hf]
  · intro hnd hv hh
    have hg := get_of_nodup s v hnd hv
    simp [get_device_path, hg, hh]

/-- Witness for C7: a store holding a single unattached volume, probed with a
missing id and with the unattached volume itself. -/
theorem unknown_and_unattached_errors_witness :
    ("nope" ∉ (list_volumes ⟨[("vol-4", 3)], []⟩).map (fun u => u.blockdevice_id) ∧
     (allIds ⟨[("vol-4", 3)], []⟩).Nodup ∧
     BlockDeviceVolume.mk "vol-4" 3 none ∈ list_volumes ⟨[("vol-4", 3)], []⟩ ∧
     (BlockDeviceVolume.mk "vol-4" 3 none).host = none) ∧
    (attach_volume "nope" "h1" ⟨[("vol-4", 3)], []⟩ =
       (.error (.unknownVolume "nope"), ⟨[("vol-4", 3)], []⟩) ∧
     get_device_path "nope" ⟨[("vol-4", 3)], []⟩ ⟨[], 0⟩ =
       (.error (.unknownVolume "nope"), ⟨[], 0⟩)) ∧
    get_device_path "vol-4" ⟨[("vol-4", 3)], []⟩ ⟨[], 0⟩ =
      (.error (.unattachedVolume "vol-4"), ⟨[], 0⟩) :=
  ⟨⟨by decide, by decide, by decide, by decide⟩,
   (unknown_and_unattached_errors ⟨[("vol-4", 3)], []⟩ ⟨[], 0⟩ "nope" "h1"
      (BlockDeviceVolume.mk "vol-4" 3 none)).1 (by decide),
   (unknown_and_unattached_errors ⟨[("vol-4", 3)], []⟩ ⟨[], 0⟩ "nope" "h1"
      (BlockDeviceVolume.mk "vol-4" 3 none)).2 (by decide) (by decide) (by decide)⟩

/-- C8: on an attached volume, `get_device_path` is idempotent — two
consecutive calls return the same device locator, the first one creating the
loopback association when none exists and the second resolving it. -/
theorem get_device_path_idempotent (s : LoopbackState) (lo : LoopState)
    (v : BlockDeviceVolume) (h0 : String)
    (hnd : (allIds s).Nodup) (hv : v ∈ list_volumes s) (hh : v.host = some h0) :
    ∃ d : String,
      (get_device_path v.blockdevice_id s lo).1 = .ok (some d) ∧
      (get_device_path v.blockdevice_id s
        (get_device_path v.blockdevice_id s lo).2).1 = .ok (some d) := by
  have hg := get_of_nodup s v hnd hv
  rcases hdp : device_for_path (h0, v.blockdevice_id) lo.assocs with _ | d
  · refine ⟨"/dev/loop" ++ toString lo.nextDevice, ?_, ?_⟩
    · simp [get_device_path, hg, hh, hdp, losetupFind, device_for_path_append _ _ _ hdp]
    · simp [get_device_path, hg, hh, hdp, losetupFind, device_for_path_append _ _ _ hdp]
  · refine ⟨d, ?_, ?_⟩
    · simp [get_device_path, hg, hh, hdp]
    · simp [get_device_path, hg, hh, hdp]

/-- Witness for C8: an attached volume with no pre-existing association. -/
theorem get_device_path_idempotent_witness :
    ((allIds ⟨[], [("h1", [("vol-5", 4)])]⟩).Nodup ∧
     BlockDeviceVolume.mk "vol-5" 4 (some "h1") ∈ list_volumes ⟨[], [("h1", [("vol-5", 4)])]⟩ ∧
     (BlockDeviceVolume.mk "vol-5" 4 (some "h1")).host = some "h1") ∧
    ∃ d : String,
      (get_device_path "vol-5" ⟨[], [("h1", [("vol-5", 4)])]⟩ ⟨[], 0⟩).1 = .ok (some d) ∧
      (get_device_path "vol-5" ⟨[], [("h1", [("vol-5", 4)])]⟩
        (get_device_path "vol-5" ⟨[], [("h1", [("vol-5", 4)])]⟩ ⟨[], 0⟩).2).1 = .ok (some d) :=
  ⟨⟨by decide, by decide, by decide⟩,
   get_device_path_idempotent ⟨[], [("h1", [("vol-5", 4)])]⟩ ⟨[], 0⟩
     (BlockDeviceVolume.mk "vol-5" 4 (some "h1")) "h1" (by decide) (by decide) (by decide)⟩

theorem mem_unattachedVols_inv (v : BlockDeviceVolume) (un : List (String × Nat))
    (h : v ∈ unattachedVols un) :
    (v.blockdevice_id, v.size.toNat) ∈ un ∧ ((v.size.toNat : Int)) = v.size := by
  rcases List.mem_map.mp h with ⟨c, hc, hcv⟩
  constructor
  · rw [← hcv]
    simpa using hc
  · rw [← hcv]
    simp

theorem unattached_mem_of_host_none (s : LoopbackState) (v : BlockDeviceVolume)
    (hv : v ∈ list_volumes s) (hh : v.host = none) :
    v ∈ unattachedVols s.unattached := by
  rcases List.mem_append.mp (by simpa [list_volumes] using hv) with h | h
  · exact h
  · rcases host_of_mem_attachedVols v _ h with ⟨hst, hhs⟩
    rw [hh] at hhs
    cases hhs

theorem attach_success (s : LoopbackState) (v : BlockDeviceVolume) (host : String)
    (hnd : (allIds s).Nodup) (hv : v ∈ list_volumes s) (hh : v.host = none) :
    attach_volume v.blockdevice_id host s =
      (.ok { v with host := some host },
       ⟨s.unattached.filter (fun c => decide ¬(c.1 = v.blockdevice_id)),
        attachFiles host v.blockdevice_id v.size.toNat s.attached⟩) := by
  have hg := get_of_nodup s v hnd hv
  simp [attach_volume, hg, hh]

/-- C4: attaching an unattached volume succeeds, returns the same record with
only the host field now set, and the resulting durable state lists the volume
attached to that host and nowhere else — in particular not in the unattached
directory any more. -/
theorem attach_volume_spec (s : LoopbackState) (v : BlockDeviceVolume) (host : String)
    (hnd : (allIds s).Nodup) (hv : v ∈ list_volumes s) (hh : v.host = none) :
    (attach_volume v.blockdevice_id host s).1 = .ok { v with host := some host } ∧
    { v with host := some host } ∈ list_volumes (attach_volume v.blockdevice_id host s).2 ∧
    (∀ v2 ∈ list_volumes (attach_volume v.blockdevice_id host s).2,
      v2.blockdevice_id = v.blockdevice_id → v2 = { v with host := some host }) := by
  have hun : v ∈ unattachedVols s.unattached := unattached_mem_of_host_none s v hv hh
  obtain ⟨hmemun, hsz⟩ := mem_unattachedVols_inv v _ hun
  have h2 : BlockDeviceVolume.mk v.blockdevice_id ((v.size.toNat : Int)) (some host)
      = { v with host := some host } := by rw [hsz]
  have hunkey : v.blockdevice_id ∈ s.unattached.map Prod.fst :=
    List.mem_map.mpr ⟨(v.blockdevice_id, v.size.toNat), hmemun, rfl⟩
  have hndSplit := hnd
  rw [allIds_eq] at hndSplit
  have hdisj := (List.nodup_append.mp hndSplit).2.2
  rw [attach_success s v host hnd hv hh]
  refine ⟨rfl, ?_, ?_⟩
  · have h1 := mem_attachFiles_self host v.blockdevice_id v.size.toNat s.attached
    simp only [list_volumes, List.mem_append]
    exact Or.inr (h2 ▸ h1)
  · intro v2 hv2 hid
    rcases List.mem_append.mp (by simpa [list_volumes] using hv2) with h | h
    · rcases List.mem_map.mp h with ⟨c, hc, hcv⟩
      have hne : c.1 ≠ v.blockdevice_id := by
        have := (List.mem_filter.mp hc).2
        simpa using this
      rw [← hcv] at hid
      exact absurd hid hne
    · rcases mem_attachFiles v2 host v.blockdevice_id v.size.toNat s.attached h with hcase | hcase
      · have hidmem : v.blockdevice_id ∈ attIds s.attached := by
          rw [← hid]
          exact List.mem_map_of_mem _ hcase
        exact absurd hidmem (hdisj hunkey)
      · rw [hcase]
        exact h2

/-- Witness for C4: one unattached volume attached to host `h1`. -/
theorem attach_volume_spec_witness :
    ((allIds ⟨[("vol-6", 5)], []⟩).Nodup ∧
     BlockDeviceVolume.mk "vol-6" 5 none ∈ list_volumes ⟨[("vol-6", 5)], []⟩ ∧
     (BlockDeviceVolume.mk "vol-6" 5 none).host = none) ∧
    ((attach_volume "vol-6" "h1" ⟨[("vol-6", 5)], []⟩).1 =
       .ok (BlockDeviceVolume.mk "vol-6" 5 (some "h1")) ∧
     BlockDeviceVolume.mk "vol-6" 5 (some "h1") ∈
       list_volumes (attach_volume "vol-6" "h1" ⟨[("vol-6", 5)], []⟩).2 ∧
     (∀ v2 ∈ list_volumes (attach_volume "vol-6" "h1" ⟨[("vol-6", 5)], []⟩).2,
       v2.blockdevice_id = "vol-6" → v2 = BlockDeviceVolume.mk "vol-6" 5 (some "h1"))) :=
  ⟨⟨by decide, by decide, by decide⟩,
   attach_volume_spec ⟨[("vol-6", 5)], []⟩ (BlockDeviceVolume.mk "vol-6" 5 none) "h1"
     (by decide) (by decide) (by decide)⟩

/-- States of the loopback backend reachable from an empty store by
`create_volume` (with a fresh uuid, as `uuid4` guarantees) and
`attach_volume` calls, the failed ones leaving the state as it was. -/
inductive Reachable : LoopbackState → Prop where
  | empty : Reachable ⟨[], []⟩
  | create (s : LoopbackState) (size : Int) (newId : String)
      (hfresh : newId ∉ allIds s) (hs : Reachable s) :
      Reachable (create_volume size newId s).2
  | attach (s : LoopbackState) (blockdevice_id host : String) (hs : Reachable s) :
      Reachable (attach_volume blockdevice_id host s).2

theorem reachable_nodup (s : LoopbackState) (hs : Reachable s) : (allIds s).Nodup := by
  induction hs with
  | empty => simp [allIds, list_volumes, unattachedVols, attachedVols]
  | create s size newId hfresh hs ih =>
      have hfkeys : newId ∉ s.unattached.map Prod.fst := by
        intro hmem
        exact hfresh (by
          rw [allIds_eq]
          exact List.mem_append.mpr (Or.inl hmem))
      have hset := setEntry_of_not_mem newId size.toNat s.unattached hfkeys
      have he : allIds (create_volume size newId s).2 =
          (s.unattached.map Prod.fst ++ [newId]) ++ attIds s.attached := by
        rw [allIds_eq]
        simp only [create_volume]
        rw [hset, List.map_append]
        rfl
      have hperm : (allIds (create_volume size newId s).2).Perm (newId :: allIds s) := by
        rw [he, allIds_eq, List.append_assoc, List.singleton_append]
        exact List.perm_middle
      exact hperm.nodup_iff.mpr (List.nodup_cons.mpr ⟨hfresh, ih⟩)
  | attach s blockdevice_id host hs ih =>
      rcases hf : findVolume blockdevice_id (list_volumes s) with _ | v
      · have he : attach_volume blockdevice_id host s =
            (.error (.unknownVolume blockdevice_id), s) := by
          simp [attach_volume, LoopbackBlockDeviceAPI._get, hf]
        rw [he]
        exact ih
      · have hvm := findVolume_mem blockdevice_id _ v hf
        rcases hvh : v.host with _ | h0
        · have hA : attach_volume blockdevice_id host s =
              (.ok { v with host := some host },
               ⟨s.unattached.filter (fun c => decide ¬(c.1 = blockdevice_id)),
                attachFiles host blockdevice_id v.size.toNat s.attached⟩) := by
            simp [attach_volume, LoopbackBlockDeviceAPI._get, hf, hvh]
          rw [hA]
          have hun : v ∈ unattachedVols s.unattached :=
            unattached_mem_of_host_none s v hvm.1 hvh
          obtain ⟨hmemun, hsz⟩ := mem_unattachedVols_inv v _ hun
          have hunkey : blockdevice_id ∈ s.unattached.map Prod.fst := by
            rw [← hvm.2]
            exact List.mem_map.mpr ⟨(v.blockdevice_id, v.size.toNat), hmemun, rfl⟩
          have ihSplit := ih
          rw [allIds_eq] at ihSplit
          have hndun := (List.nodup_append.mp ihSplit).1
          have hnotatt : blockdevice_id ∉ attIds s.attached :=
            (List.nodup_append.mp ihSplit).2.2 hunkey
          have p1 := filter_keys_perm blockdevice_id s.unattached hndun hunkey
          have p2 := attachFiles_ids_perm host blockdevice_id v.size.toNat s.attached hnotatt
          have q1 : (allIds s).Perm (blockdevice_id ::
              (((s.unattached.filter (fun c => decide ¬(c.1 = blockdevice_id))).map Prod.fst)
                ++ attIds s.attached)) := by
            rw [allIds_eq, ← List.cons_append]
            exact p1.append_right _
          have q2 : (((s.unattached.filter (fun c => decide ¬(c.1 = blockdevice_id))).map
                Prod.fst)
              ++ attIds (attachFiles host blockdevice_id v.size.toNat s.attached)).Perm
              (blockdevice_id ::
                (((s.unattached.filter (fun c => decide ¬(c.1 = blockdevice_id))).map Prod.fst)
                  ++ attIds s.attached)) :=
            (List.Perm.append_left _ p2).trans List.perm_middle
          have pAll := q2.trans q1.symm
          rw [allIds_eq]
          exact pAll.nodup_iff.mpr ih
        · have he : attach_volume blockdevice_id host s =
              (.error (.alreadyAttachedVolume blockdevice_id), s) := by
            simp [attach_volume, LoopbackBlockDeviceAPI._get, hf, hvh]
          rw [he]
          exact ih

theorem hostDirs_le_count (i : String) (att : List (String × List (String × Nat))) :
    ((att.filter (fun hd => decide (i ∈ hd.2.map Prod.fst))).map Prod.fst).length
      ≤ (attIds att).count i := by
  induction att with
  | nil => simp [attIds, attachedVols]
  | cons hd rest ih =>
      rcases hd with ⟨h0, files⟩
      rw [attIds_cons, List.count_append, List.filter_cons]
      by_cases hmem : i ∈ files.map Prod.fst
      · rw [if_pos (by simpa using hmem), List.map_cons, List.length_cons]
        have h1 : 0 < (files.map Prod.fst).count i := List.count_pos_iff.mpr hmem
        omega
      · rw [if_neg (by simpa using hmem)]
        exact le_trans ih (Nat.le_add_left _ _)

/-- C9: in every state reachable from the empty store by create and attach
operations, every volume id occurs exactly once in the whole tree — so it is
never both unattached and attached, never under two hosts, and the number of
host directories holding a file of that id is at most one. -/
theorem reachable_invariant (s : LoopbackState) (hs : Reachable s) :
    (allIds s).Nodup ∧
    (∀ i, ¬ (i ∈ s.unattached.map Prod.fst ∧ i ∈ attIds s.attached)) ∧
    (∀ i, ((s.attached.filter (fun hd => decide (i ∈ hd.2.map Prod.fst))).map
        Prod.fst).length ≤ 1) := by
  have hnd := reachable_nodup s hs
  refine ⟨hnd, ?_, ?_⟩
  · rintro i ⟨h1, h2⟩
    rw [allIds_eq] at hnd
    exact (List.nodup_append.mp hnd).2.2 h1 h2
  · intro i
    refine le_trans (hostDirs_le_count i s.attached) ?_
    rw [allIds_eq] at hnd
    exact List.nodup_iff_count_le_one.mp (List.nodup_append.mp hnd).2.1 i

/-- Witness for C9: the state reached by one create followed by one attach. -/
theorem reachable_invariant_witness :
    Reachable (attach_volume "vol-7" "h1" (create_volume 3 "vol-7" ⟨[], []⟩).2).2 ∧
    ((allIds (attach_volume "vol-7" "h1" (create_volume 3 "vol-7" ⟨[], []⟩).2).2).Nodup ∧
     (∀ i, ¬ (i ∈ (attach_volume "vol-7" "h1"
            (create_volume 3 "vol-7" ⟨[], []⟩).2).2.unattached.map Prod.fst ∧
          i ∈ attIds (attach_volume "vol-7" "h1"
            (create_volume 3 "vol-7" ⟨[], []⟩).2).2.attached)) ∧
     (∀ i, (((attach_volume "vol-7" "h1" (create_volume 3 "vol-7" ⟨[], []⟩).2).2.attached.filter
         (fun hd => decide (i ∈ hd.2.map Prod.fst))).map Prod.fst).length ≤ 1)) :=
  have hr : Reachable (attach_volume "vol-7" "h1" (create_volume 3 "vol-7" ⟨[], []⟩).2).2 :=
    Reachable.attach _ "vol-7" "h1"
      (Reachable.create ⟨[], []⟩ 3 "vol-7" (by decide) Reachable.empty)
  ⟨hr, reachable_invariant _ hr⟩

/-- C2: `discover_local_state` returns a `NodeState` carrying the deployer
hostname whose manifestations are exactly one primary manifestation, with
dataset id equal to the volume id, per volume attached to this host; volumes
unattached or attached elsewhere contribute nothing, so with none attached
here the manifestation set is empty. -/
theorem discover_local_state_spec (hostname : String) (volumes : List BlockDeviceVolume) :
    (discover_local_state hostname volumes).hostname = hostname ∧
    (discover_local_state hostname volumes).manifestations =
      (volumes.filter (fun v => decide (v.host = some hostname))).map
        _manifestation_from_volume ∧
    (∀ m ∈ (discover_local_state hostname volumes).manifestations,
      m.primary = true ∧
      ∃ v ∈ volumes, v.host = some hostname ∧ m.dataset.dataset_id = v.blockdevice_id) ∧
    ((∀ v ∈ volumes, v.host ≠ some hostname) →
      (discover_local_state hostname volumes).manifestations = []) := by
  refine ⟨rfl, rfl, ?_, ?_⟩
  · intro m hm
    rcases List.mem_map.mp hm with ⟨v, hv, hmv⟩
    have hvf := List.mem_filter.mp hv
    refine ⟨by rw [← hmv]; rfl, v, hvf.1, by simpa using hvf.2, by rw [← hmv]; rfl⟩
  · intro hall
    have hf : volumes.filter (fun v => decide (v.host = some hostname)) = [] := by
      rw [List.filter_eq_nil_iff]
      intro v hv
      simpa using hall v hv
    simp [discover_local_state, hf]

/-- Witness for C2: a listing with an unattached volume and a volume attached
to another host yields an empty manifestation set on this host. -/
theorem discover_local_state_spec_witness :
    (∀ v ∈ [BlockDeviceVolume.mk "b" 2 none, BlockDeviceVolume.mk "c" 3 (some "h2")],
      v.host ≠ some "h9") ∧
    (discover_local_state "h9"
      [BlockDeviceVolume.mk "b" 2 none,
       BlockDeviceVolume.mk "c" 3 (some "h2")]).manifestations = [] :=
  ⟨by decide,
   (discover_local_state_spec "h9"
     [BlockDeviceVolume.mk "b" 2 none,
      BlockDeviceVolume.mk "c" 3 (some "h2")]).2.2.2 (by decide)⟩

/-- C1: `calculate_necessary_state_changes` selects the desired entry for
this hostname (an empty manifestation set when there is none), diffs the
configured manifestations against the local ones by value, and returns an
`InParallel` holding exactly one `CreateBlockDeviceDataset` per missing
manifestation, with its dataset and the mountpoint `/flocker/<dataset_id>`;
a locally present manifestation is never in the difference. -/
theorem calculate_necessary_state_changes_spec (d : BlockDeviceDeployer)
    (local_state : NodeState) (desired cluster : Deployment) :
    ((desired.nodes.filter (fun node => decide (node.hostname = some d.hostname))) = [] →
      calculate_necessary_state_changes d local_state desired cluster =
        some { changes := 0 }) ∧
    (∀ c, (desired.nodes.filter (fun node => decide (node.hostname = some d.hostname))) = [c] →
      (calculate_necessary_state_changes d local_state desired cluster =
        some { changes :=
          (((c.manifestations.map Prod.snd).toFinset \
              local_state.manifestations.toFinset).val.map
            (fun m => { dataset := m.dataset,
                        mountpoint := _mountpath_for_manifestation m })) } ∧
      ∀ m ∈ local_state.manifestations,
        m ∉ ((c.manifestations.map Prod.snd).toFinset \
          local_state.manifestations.toFinset))) := by
  constructor
  · intro h
    simp [calculate_necessary_state_changes, h]
  · intro c h
    constructor
    · simp [calculate_necessary_state_changes, h]
    · intro m hm
      rw [Finset.mem_sdiff]
      rintro ⟨_, hnot⟩
      exact hnot (List.mem_toFinset.mpr hm)

/-- Witness for C1: one desired node for this host with one configured
manifestation, another manifestation already local. -/
theorem calculate_necessary_state_changes_spec_witness :
    ((Deployment.mk [Node.mk (some "h1")
          [("d2", Manifestation.mk (Dataset.mk "d2" (some 10)) true)]]).nodes.filter
        (fun node => decide (node.hostname = some (BlockDeviceDeployer.mk "h1").hostname)) =
      [Node.mk (some "h1") [("d2", Manifestation.mk (Dataset.mk "d2" (some 10)) true)]]) ∧
    (calculate_necessary_state_changes (BlockDeviceDeployer.mk "h1")
        (NodeState.mk "h1" [] [] [Manifestation.mk (Dataset.mk "d1" none) true] [])
        (Deployment.mk [Node.mk (some "h1")
          [("d2", Manifestation.mk (Dataset.mk "d2" (some 10)) true)]])
        (Deployment.mk []) =
      some { changes :=
        ((((Node.mk (some "h1")
              [("d2", Manifestation.mk (Dataset.mk "d2" (some 10)) true)]).manifestations.map
                Prod.snd).toFinset \
            (NodeState.mk "h1" [] [] [Manifestation.mk (Dataset.mk "d1" none) true]
              []).manifestations.toFinset).val.map
          (fun m => { dataset := m.dataset,
                      mountpoint := _mountpath_for_manifestation m })) } ∧
     ∀ m ∈ (NodeState.mk "h1" [] [] [Manifestation.mk (Dataset.mk "d1" none) true]
         []).manifestations,
       m ∉ (((Node.mk (some "h1")
             [("d2", Manifestation.mk (Dataset.mk "d2" (some 10)) true)]).manifestations.map
               Prod.snd).toFinset \
         (NodeState.mk "h1" [] [] [Manifestation.mk (Dataset.mk "d1" none) true]
           []).manifestations.toFinset)) :=
  ⟨by decide,
   (calculate_necessary_state_changes_spec (BlockDeviceDeployer.mk "h1")
      (NodeState.mk "h1" [] [] [Manifestation.mk (Dataset.mk "d1" none) true] [])
      (Deployment.mk [Node.mk (some "h1")
        [("d2", Manifestation.mk (Dataset.mk "d2" (some 10)) true)]])
      (Deployment.mk [])).2
     (Node.mk (some "h1") [("d2", Manifestation.mk (Dataset.mk "d2" (some 10)) true)])
     (by decide)⟩

/-- C3: a successful `CreateBlockDeviceDataset.run` creates a volume of the
dataset maximum size, attaches it to the deployer host, resolves a device,
creates the mountpoint directory, writes an ext4 filesystem on the device and
mounts it there: afterwards the listing holds a volume of that size attached
to that host and the mount table holds the device/mountpoint/ext4 entry. -/
theorem CreateBlockDeviceDataset.run_spec (c : CreateBlockDeviceDataset)
    (d : BlockDeviceDeployer) (newId : String) (w : World) (size : Int)
    (hsz : c.dataset.maximum_size = some size) (hnn : 0 ≤ size)
    (hfresh : newId ∉ allIds w.store)
    (hno : device_for_path (d.hostname, newId) w.loops.assocs = none)
    (hdir : c.mountpoint ∉ w.dirs) :
    ∃ w2 : World, CreateBlockDeviceDataset.run c d newId w = some w2 ∧
      BlockDeviceVolume.mk newId size (some d.hostname) ∈ list_volumes w2.store ∧
      c.mountpoint ∈ w2.dirs ∧
      ∃ dev : String,
        lookupEntry dev w2.filesystems = some "ext4" ∧
        MountEntry.mk dev c.mountpoint "ext4" ∈ w2.mounts := by
  have hn : ((size.toNat : Int)) = size := Int.toNat_of_nonneg hnn
  have hfkeys : newId ∉ w.store.unattached.map Prod.fst := by
    intro hmem
    exact hfresh (by
      rw [allIds_eq]
      exact List.mem_append.mpr (Or.inl hmem))
  have hnotatt : newId ∉ attIds w.store.attached := by
    intro hmem
    exact hfresh (by
      rw [allIds_eq]
      exact List.mem_append.mpr (Or.inr hmem))
  have hset : setEntry newId size.toNat w.store.unattached
      = w.store.unattached ++ [(newId, size.toNat)] := setEntry_of_not_mem _ _ _ hfkeys
  have hfindun : findVolume newId (unattachedVols w.store.unattached) = none := by
    apply findVolume_eq_none
    rw [unattachedVols_ids]
    exact hfkeys
  have happend : unattachedVols (w.store.unattached ++ [(newId, size.toNat)])
      = unattachedVols w.store.unattached
        ++ [BlockDeviceVolume.mk newId ((size.toNat : Int)) none] := by
    simp [unattachedVols]
  have hfind1 : findVolume newId (list_volumes
      ⟨setEntry newId size.toNat w.store.unattached, w.store.attached⟩)
      = some (BlockDeviceVolume.mk newId ((size.toNat : Int)) none) := by
    simp only [list_volumes]
    rw [hset, happend, List.append_assoc, findVolume_append_none _ _ _ hfindun]
    simp [findVolume]
  have hatt : attach_volume newId d.hostname
      ⟨setEntry newId size.toNat w.store.unattached, w.store.attached⟩
      = (.ok (BlockDeviceVolume.mk newId ((size.toNat : Int)) (some d.hostname)),
         ⟨(setEntry newId size.toNat w.store.unattached).filter
             (fun cc => decide ¬(cc.1 = newId)),
          attachFiles d.hostname newId size.toNat w.store.attached⟩) := by
    have e1 : LoopbackBlockDeviceAPI._get newId
        ⟨setEntry newId size.toNat w.store.unattached, w.store.attached⟩
        = .ok (BlockDeviceVolume.mk newId ((size.toNat : Int)) none) := by
      unfold LoopbackBlockDeviceAPI._get
      rw [hfind1]
    unfold attach_volume
    rw [e1]
    rfl
  have hfind2 : findVolume newId (list_volumes
      ⟨(setEntry newId size.toNat w.store.unattached).filter
          (fun cc => decide ¬(cc.1 = newId)),
       attachFiles d.hostname newId size.toNat w.store.attached⟩)
      = some (BlockDeviceVolume.mk newId ((size.toNat : Int)) (some d.hostname)) := by
    simp only [list_volumes]
    rw [findVolume_append_none _ _ _ (findVolume_filtered newId _)]
    exact findVolume_attachFiles d.hostname newId size.toNat w.store.attached hnotatt
  have hgdp : get_device_path newId
      ⟨(setEntry newId size.toNat w.store.unattached).filter
          (fun cc => decide ¬(cc.1 = newId)),
       attachFiles d.hostname newId size.toNat w.store.attached⟩ w.loops
      = (.ok (some ("/dev/loop" ++ toString w.loops.nextDevice)),
         losetupFind (d.hostname, newId) w.loops) := by
    have e2 : LoopbackBlockDeviceAPI._get newId
        ⟨(setEntry newId size.toNat w.store.unattached).filter
            (fun cc => decide ¬(cc.1 = newId)),
         attachFiles d.hostname newId size.toNat w.store.attached⟩
        = .ok (BlockDeviceVolume.mk newId ((size.toNat : Int)) (some d.hostname)) := by
      unfold LoopbackBlockDeviceAPI._get
      rw [hfind2]
    unfold get_device_path
    rw [e2]
    simp only [hno, losetupFind]
    rw [device_for_path_append _ _ _ hno]
  have hRun : CreateBlockDeviceDataset.run c d newId w = some
      { store := ⟨(setEntry newId size.toNat w.store.unattached).filter
            (fun cc => decide ¬(cc.1 = newId)),
          attachFiles d.hostname newId size.toNat w.store.attached⟩,
        loops := losetupFind (d.hostname, newId) w.loops,
        dirs := w.dirs ++ [c.mountpoint],
        filesystems := setEntry ("/dev/loop" ++ toString w.loops.nextDevice) "ext4"
          w.filesystems,
        mounts := w.mounts ++ [MountEntry.mk ("/dev/loop" ++ toString w.loops.nextDevice)
          c.mountpoint "ext4"] } := by
    unfold CreateBlockDeviceDataset.run
    rw [hsz]
    simp only [create_volume, hatt, hgdp, if_neg hdir]
  refine ⟨_, hRun, ?_, ?_, "/dev/loop" ++ toString w.loops.nextDevice, ?_, ?_⟩
  · have h1 := mem_attachFiles_self d.hostname newId size.toNat w.store.attached
    rw [hn] at h1
    simp only [list_volumes, List.mem_append]
    exact Or.inr h1
  · simp
  · exact lookupEntry_setEntry _ _ _
  · simp

/-- Witness for C3: the end-to-end scenario — a 10 MiB dataset created on
host 192.0.2.1 in an empty world. -/
theorem CreateBlockDeviceDataset.run_spec_witness :
    ((CreateBlockDeviceDataset.mk (Dataset.mk "d9" (some 10485760))
        "/flocker/d9").dataset.maximum_size = some 10485760 ∧
     (0 : Int) ≤ 10485760 ∧
     "vol-9" ∉ allIds ⟨[], []⟩ ∧
     device_for_path ("192.0.2.1", "vol-9") (LoopState.mk [] 0).assocs = none ∧
     "/flocker/d9" ∉ (World.mk ⟨[], []⟩ (LoopState.mk [] 0) [] [] []).dirs) ∧
    ∃ w2 : World,
      CreateBlockDeviceDataset.run
        (CreateBlockDeviceDataset.mk (Dataset.mk "d9" (some 10485760)) "/flocker/d9")
        (BlockDeviceDeployer.mk "192.0.2.1") "vol-9"
        (World.mk ⟨[], []⟩ (LoopState.mk [] 0) [] [] []) = some w2 ∧
      BlockDeviceVolume.mk "vol-9" 10485760 (some "192.0.2.1") ∈ list_volumes w2.store ∧
      "/flocker/d9" ∈ w2.dirs ∧
      ∃ dev : String,
        lookupEntry dev w2.filesystems = some "ext4" ∧
        MountEntry.mk dev "/flocker/d9" "ext4" ∈ w2.mounts :=
  ⟨⟨rfl, by decide, by decide, rfl, by decide⟩,
   CreateBlockDeviceDataset.run_spec
     (CreateBlockDeviceDataset.mk (Dataset.mk "d9" (some 10485760)) "/flocker/d9")
     (BlockDeviceDeployer.mk "192.0.2.1") "vol-9"
     (World.mk ⟨[], []⟩ (LoopState.mk [] 0) [] [] []) 10485760
     rfl (by decide) (by decide) rfl (by decide)⟩

/-- The mountpoint error path of `run`: whenever the mountpoint directory
already exists, `os.makedirs` raises, so the whole action fails — no matter
how the earlier steps went. -/
theorem run_none_of_existing_mountpoint (c : CreateBlockDeviceDataset)
    (d : BlockDeviceDeployer) (newId : String) (w : World)
    (hdir : c.mountpoint ∈ w.dirs) :
    CreateBlockDeviceDataset.run c d newId w = none := by
  unfold CreateBlockDeviceDataset.run
  rcases c.dataset.maximum_size with _ | size
  · rfl
  · rcases hA : attach_volume (create_volume size newId w.store).1.blockdevice_id d.hostname
        (create_volume size newId w.store).2 with ⟨r, s2⟩
    simp only [hA]
    cases r with
    | error e0 => rfl
    | ok v =>
        rcases hG : get_device_path v.blockdevice_id s2 w.loops with ⟨g, lo2⟩
        simp only [hG]
        cases g with
        | error e1 => rfl
        | ok od =>
            cases od with
            | none => rfl
            | some dev => simp [hdir]
